import Mathlib

/-!
Shallow embedding of the minio-js client core (`src/src/main/minio.js`)
and proofs about the claims of its specification.

Sizes are byte counts; all sizes appearing here fit exactly in an IEEE
double, and the only arithmetic performed by the source on them
(`Math.ceil` of a division by 10000 or by the fixed part sizes,
additions, comparisons) is exact in that range, so `Nat` models the
JavaScript numbers faithfully.

Out-of-scope collaborators (the input-validator helpers of
`helpers.js`, the XML decoders, hashing and the HTTP transport) are
modelled as parameters or as abstract response records, matching the
spec's statement that the core consumes them by interface only.
-/

namespace Minio

/-- Constant fixed in the `Client` constructor: `this.minimumPartSize = 5*1024*1024`. -/
def minimumPartSize : Nat := 5 * 1024 * 1024

/-- Constant fixed in the `Client` constructor: `this.maximumPartSize = 5*1024*1024*1024`. -/
def maximumPartSize : Nat := 5 * 1024 * 1024 * 1024

/-- Constant fixed in the `Client` constructor: `this.maxObjectSize = 5*1024*1024*1024*1024`. -/
def maxObjectSize : Nat := 5 * 1024 * 1024 * 1024 * 1024

/-- Ceiling division on naturals: `Math.ceil(a / b)` for nonnegative integer `a`
and positive integer `b` (the float division in the source is exact enough that
its ceiling agrees with the rational ceiling for all sizes up to 5 TiB). -/
def ceilDiv (a b : Nat) : Nat := (a + b - 1) / b

/-- Embedding of `Client.calculatePartSize(size)`:
raises a `TypeError` when `size > this.maxObjectSize`, otherwise returns
`Math.ceil(Math.ceil(size/10000) / minimumPartSize) * minimumPartSize`. -/
def calculatePartSize (size : Nat) : Except String Nat :=
  if size > maxObjectSize then
    .error "size should not be more than maxObjectSize"
  else
    let partSize := ceilDiv size 10000
    .ok (ceilDiv partSize minimumPartSize * minimumPartSize)

/-- Which upload path an entry point takes. -/
inductive UploadRoute where
  | singleShot
  | multipart
  | tooLarge
  deriving DecidableEq, Repr

/-- Embedding of the path decision in `putObject`: after argument
dispatch the source tests `if (size <= this.minimumPartSize)` and runs
the simple (buffered, single PUT) path, else the multipart waterfall. -/
def putObjectRoute (size : Nat) : UploadRoute :=
  if size ≤ minimumPartSize then .singleShot else .multipart

/-- Embedding of the path decision in `fPutObject`: with `size` the file's
stat size, the source first errors when `size > this.maxObjectSize`, then
tests `if (size < this.minimumPartSize)` for the simple PUT path, else
falls through to `findUploadId` and the multipart waterfall. -/
def fPutObjectRoute (size : Nat) : UploadRoute :=
  if size > maxObjectSize then .tooLarge
  else if size < minimumPartSize then .singleShot
  else .multipart

/-- Request issued by the simple (non-multipart) uploader returned by
`getUploader(..., multipart = false)`: method PUT, empty query (no
`uploadId`/`partNumber`), headers `Content-Length`, `Content-Type`,
`Content-MD5`, streamed with the given payload sha256, expecting 200. -/
structure UploadRequest where
  method : String
  query : String
  contentLength : Nat
  contentType : String
  contentMD5 : String
  sha256sum : String
  expectedStatus : Nat
  deriving DecidableEq, Repr

/-- Embedding of `getUploader`'s `simpleUploader`/`upload` closure for the
single-shot path (`query = ''`). -/
def simpleUploadRequest (contentType : String) (length : Nat)
    (sha256sum md5sum : String) : UploadRequest :=
  { method := "PUT"
    query := ""
    contentLength := length
    contentType := if contentType = "" then "application/octet-stream" else contentType
    contentMD5 := md5sum
    sha256sum := sha256sum
    expectedStatus := 200 }

/-- Embedding of `getUploader`'s `multipartUploader` query construction:
`partNumber={partNumber}&uploadId={uploadId}`. -/
def multipartUploadQuery (partNumber : Nat) (uploadId : String) : String :=
  "partNumber=" ++ toString partNumber ++ "&uploadId=" ++ uploadId

/-! ### Region cache (`this.regionMap`)

The region cache is a plain JavaScript object mapping bucket name to
region code: property read, property assignment (overwrite) and
`delete`.  We model it as an association list with lookup by key;
assignment removes any previous binding and appends the new one. -/

/-- A JavaScript string-keyed object viewed as a finite map. -/
abbrev StrMap := List (String × String)

/-- Property read `m[k]`: `none` when the key is absent. -/
def lookupEntry (m : StrMap) (k : String) : Option String :=
  (m.find? (fun p => p.1 == k)).map (fun p => p.2)

/-- Property deletion `delete m[k]`. -/
def eraseEntry (m : StrMap) (k : String) : StrMap :=
  m.filter (fun p => p.1 != k)

/-- Property assignment `m[k] = v` (overwrites any previous binding). -/
def insertEntry (m : StrMap) (k v : String) : StrMap :=
  eraseEntry m k ++ [(k, v)]

/-- Embedding of the response handler inside `makeRequestStream`: when the
response status differs from the expected status the source first runs
`delete this.regionMap[options.bucketName]` (a request spec without a
bucket name indexes the object at the literal key `"undefined"`) and only
then pipes the response through the error transformer, delivering the
decoded error to the callback; on a status match the response stream is
delivered and the cache is untouched.  The result is the region map in
force when the callback fires, paired with whether the callback received
an error. -/
def makeRequestStreamOnResponse (m : StrMap) (bucketName : Option String)
    (expectedStatus actualStatus : Nat) : StrMap × Bool :=
  if expectedStatus ≠ actualStatus then
    (eraseEntry m (bucketName.getD "undefined"), true)
  else
    (m, false)

/-- Embedding of `removeBucket`: a DELETE on the bucket expecting status
204; when the callback reports no error the source additionally runs
`delete this.regionMap[bucketName]`.  Input is the actual response
status; output is the final region map and whether an error was
surfaced. -/
def removeBucket (m : StrMap) (bucketName : String) (actualStatus : Nat) :
    StrMap × Bool :=
  let r := makeRequestStreamOnResponse m (some bucketName) 204 actualStatus
  if r.2 then r else (eraseEntry r.1 bucketName, false)

/-! ### Region resolution (`getBucketRegion`) -/

/-- The path-style GET `?location` request built inside `getBucketRegion`:
`signingRegion` is the region handed to `signV4`, absent for anonymous
clients (no signing). -/
structure LocationRequest where
  method : String
  host : String
  path : String
  signingRegion : Option String
  deriving DecidableEq, Repr

/-- The `?location` request exactly as `getBucketRegion` constructs it:
always path-style against the endpoint host, signed with `us-east-1`
unless the client is anonymous. -/
def locationRequest (endpointHost : String) (anonymous : Bool)
    (bucketName : String) : LocationRequest :=
  { method := "GET"
    host := endpointHost
    path := "/" ++ bucketName ++ "?location"
    signingRegion := if anonymous then none else some "us-east-1" }

/-- The `?location` response as seen through the bucket-region
transformer: the status code, and the string the transformer emits from
the `<LocationConstraint>` body — `none` when no data event fires
(absent body). -/
structure LocationResponse where
  statusCode : Nat
  body : Option String
  deriving DecidableEq, Repr

/-- Embedding of the region defaulting in `getBucketRegion`:
`var region = 'us-east-1'` overwritten by `if (data) region = data`, so
an absent or empty (falsy) emitted value leaves `us-east-1`. -/
def regionFromBody : Option String → String
  | none => "us-east-1"
  | some s => if s = "" then "us-east-1" else s

/-- Outcome of one `getBucketRegion` call: a cache hit returns without
issuing any request; otherwise the `?location` request is issued and
either decodes a region (status 200) or surfaces an error. -/
inductive RegionOutcome where
  | hit (region : String)
  | ok (req : LocationRequest) (region : String)
  | err (req : LocationRequest)
  deriving DecidableEq, Repr

/-- Whether a `RegionOutcome` involved issuing the `?location` request. -/
def RegionOutcome.issuedRequest : RegionOutcome → Bool
  | .hit _ => false
  | _ => true

/-- The cache-miss body of `getBucketRegion`: issue the `?location`
request; on an unexpected status surface the decoded error with the
cache unchanged; on 200 decode the region, insert it into the cache and
return it. -/
def getBucketRegionFetch (endpointHost : String) (anonymous : Bool)
    (m : StrMap) (bucketName : String) (resp : LocationResponse) :
    RegionOutcome × StrMap :=
  let req := locationRequest endpointHost anonymous bucketName
  if resp.statusCode ≠ 200 then
    (.err req, m)
  else
    let region := regionFromBody resp.body
    (.ok req region, insertEntry m bucketName region)

/-- Embedding of `getBucketRegion`: `if (this.regionMap[bucketName])
return cb(null, this.regionMap[bucketName])` — a truthy (present and
non-empty) cached entry is returned with no request; otherwise the fetch
path runs.  `resp` is the response the server would give to the
`?location` request. -/
def getBucketRegion (endpointHost : String) (anonymous : Bool)
    (m : StrMap) (bucketName : String) (resp : LocationResponse) :
    RegionOutcome × StrMap :=
  match lookupEntry m bucketName with
  | some r =>
    if r = "" then getBucketRegionFetch endpointHost anonymous m bucketName resp
    else (.hit r, m)
  | none => getBucketRegionFetch endpointHost anonymous m bucketName resp

/-- Region resolution at the top of `makeRequestStream`: a request spec
without a bucket name runs `_makeRequest(null, 'us-east-1')` directly
(no lookup, no request); otherwise `getBucketRegion` is consulted. -/
inductive ResolvedRegion where
  | direct (region : String)
  | viaCache (o : RegionOutcome)
  deriving DecidableEq, Repr

/-- Embedding of the region-resolution dispatch in `makeRequestStream`. -/
def resolveRegion (endpointHost : String) (anonymous : Bool) (m : StrMap)
    (bucketName : Option String) (resp : LocationResponse) :
    ResolvedRegion × StrMap :=
  match bucketName with
  | none => (.direct "us-east-1", m)
  | some b =>
    let r := getBucketRegion endpointHost anonymous m b resp
    (.viaCache r.1, r.2)

/-! ### `makeBucket` -/

/-- The set of canned ACLs the source accepts, as enumerated by its own
`InvalidACLError` message (the `isValidACL` helper itself lives in the
out-of-scope `helpers.js`). -/
def isValidACL (acl : String) : Bool :=
  acl == "private" || acl == "public-read" || acl == "public-read-write" ||
    acl == "authenticated-read"

/-- Embedding of the payload construction in `makeBucket`: the payload is
the empty string unless `region` is truthy (non-empty), in which case the
`xml` package renders the `CreateBucketConfiguration` document with that
`LocationConstraint`. -/
def makeBucketPayload (region : String) : String :=
  if region = "" then ""
  else
    "<CreateBucketConfiguration xmlns=\"http://s3.amazonaws.com/doc/2006-03-01/\"><LocationConstraint>"
      ++ region ++ "</LocationConstraint></CreateBucketConfiguration>"

/-- The request `makeBucket` issues: PUT on the bucket with the
`x-amz-acl` header, always signed with region `us-east-1`, expecting
status 200. -/
structure MakeBucketRequest where
  method : String
  bucketName : String
  payload : String
  aclHeader : String
  signingRegion : String
  expectedStatus : Nat
  deriving DecidableEq, Repr

/-- Embedding of `makeBucket` (bucket-name validation by the out-of-scope
helper is omitted; an empty `acl` defaults to `private`; an invalid acl
raises `InvalidACLError` before any I/O). -/
def makeBucket (bucketName acl region : String) : Except String MakeBucketRequest :=
  let acl := if acl = "" then "private" else acl
  if isValidACL acl then
    .ok { method := "PUT"
          bucketName := bucketName
          payload := makeBucketPayload region
          aclHeader := acl
          signingRegion := "us-east-1"
          expectedStatus := 200 }
  else
    .error "InvalidACLError"

/-! ### `fGetObject` -/

/-- The world `fGetObject` runs against, after `statObject` succeeded with
the given size and etag: whether the resume part file already exists on
disk and with which size, and how many bytes the server streams for the
issued download (from the requested offset to the end of the object when
the transfer completes, fewer when it is cut short). -/
structure FGetWorld where
  objSize : Nat
  etag : String
  partFileExists : Bool
  partFileSize : Nat
  downloadedBytes : Nat
  deriving DecidableEq, Repr

/-- Observable outcome of one completed `fGetObject` run with successful
file-system I/O: the part-file path, whether the download was skipped,
the resume offset and append flag of the issued `getPartialObject`, the
part file's final size, whether the final size check constructed the
`Size mismatch` error, whether `fs.rename(partFile, filePath)` ran, and
the error delivered to the caller. -/
structure FGetResult where
  partFile : String
  skippedDownload : Bool
  downloadOffset : Nat
  appendFlag : Bool
  finalPartSize : Nat
  sizeMismatch : Bool
  renamed : Bool
  surfacedError : Option String
  deriving DecidableEq, Repr

/-- How an `fGetObject` run ends: either the waterfall runs to its
completion callback, or the operation dies on the uncaught
`TypeError('callback should be of type "function"')` thrown by
`getPartialObject`'s validation when the argument-shifted waterfall
hands it an undefined callback (see `fGetObject` below) — then no
download, no rename and no user callback happen; only the part-file
path had been computed. -/
inductive FGetOutcome where
  | completed (r : FGetResult)
  | crashed (partFile : String)
  deriving DecidableEq, Repr

/-- The part-file path computed by the run, available in both outcomes. -/
def FGetOutcome.partFile : FGetOutcome → String
  | .completed r => r.partFile
  | .crashed pf => pf

/-- Embedding of the `fGetObject` waterfall; `dirname` is Node's
`path.dirname` (the `path` module is an out-of-scope collaborator).
`partFile = filePath + '.' + objStat.etag + '.part.minio'`.  The second
task checks `path.dirname(filePath)`: when it is `'.'` it runs
`return cb()` with no result argument, so `async.waterfall` invokes the
third task with only the continuation — its `(ignore, cb)` parameters
bind `ignore` to the continuation and `cb` to `undefined`.  In the third
task, when the part file exists with exactly the object's size the
source returns `rename()` at once (`rename` closes over the caller's
callback, so this works in either dirname case); otherwise it calls
`getPartialObject(bucketName, objectName, offset, 0, cb)` — with the
shifted `cb = undefined` that throws an uncaught
`TypeError('callback should be of type "function"')`, aborting the run.
With a real directory component, the download resumes from `stats.size`
with write flags `'a'` when the part file exists with a different size,
else starts at offset 0 with flags `'w'`.  After the download the part
file is stat'ed again and a size mismatch constructs
`new Error('Size mismatch …')` — but the waterfall's completion callback
is `rename`, which takes no error parameter, so the error is discarded,
the rename to `filePath` runs unconditionally, and the caller's callback
only sees `fs.rename`'s own result (`none` here, where file-system calls
succeed). -/
def fGetObject (dirname : String → String) (filePath : String)
    (w : FGetWorld) : FGetOutcome :=
  let partFile := filePath ++ "." ++ w.etag ++ ".part.minio"
  if w.partFileExists && w.partFileSize == w.objSize then
    .completed
      { partFile := partFile
        skippedDownload := true
        downloadOffset := 0
        appendFlag := false
        finalPartSize := w.partFileSize
        sizeMismatch := false
        renamed := true
        surfacedError := none }
  else if dirname filePath = "." then
    .crashed partFile
  else
    let offset := if w.partFileExists then w.partFileSize else 0
    let finalSize := offset + w.downloadedBytes
    .completed
      { partFile := partFile
        skippedDownload := false
        downloadOffset := offset
        appendFlag := w.partFileExists
        finalPartSize := finalSize
        sizeMismatch := finalSize != w.objSize
        renamed := true
        surfacedError := none }

/-! ### `getPartialObject` -/

/-- Embedding of the Range computation in `getPartialObject`: with
`offset` and `length` nonnegative numbers, `if (offset || length)` builds
`bytes={offset}-` (offset coerced to 0 when falsy) and appends
`(length + offset) - 1` when `length` is truthy. -/
def getPartialObjectRange (offset length : Nat) : String :=
  if offset ≠ 0 ∨ length ≠ 0 then
    (if offset ≠ 0 then "bytes=" ++ toString offset ++ "-" else "bytes=0-")
      ++ (if length ≠ 0 then toString (length + offset - 1) else "")
  else ""

/-- The GET request `getPartialObject` hands to `makeRequest`. -/
structure GetRequest where
  method : String
  bucketName : String
  objectName : String
  rangeHeader : Option String
  expectedStatus : Nat
  deriving DecidableEq, Repr

/-- Embedding of `getPartialObject`: the `range` header is set only when
the computed range string is non-empty, and the expected status is 206
when a range was computed, 200 otherwise. -/
def getPartialObject (bucketName objectName : String) (offset length : Nat) :
    GetRequest :=
  let range := getPartialObjectRange offset length
  { method := "GET"
    bucketName := bucketName
    objectName := objectName
    rangeHeader := if range ≠ "" then some range else none
    expectedStatus := if range ≠ "" then 206 else 200 }

/-! ### `getBucketACL` -/

/-- Grantee URI of the all-users group, as matched by the source. -/
def allUsersURI : String := "http://acs.amazonaws.com/groups/global/AllUsers"

/-- Grantee URI of the authenticated-users group, as matched by the source. -/
def authenticatedUsersURI : String :=
  "http://acs.amazonaws.com/groups/global/AuthenticatedUsers"

/-- One server-returned grant, as decoded by the ACL transformer. -/
structure Grant where
  granteeURI : String
  permission : String
  deriving DecidableEq, Repr

/-- The accumulator of the grant reduction in `getBucketACL` (the source
starts from `{}`, whose absent properties are falsy). -/
structure AclPerm where
  publicRead : Bool := false
  publicWrite : Bool := false
  authenticatedRead : Bool := false
  authenticatedWrite : Bool := false
  deriving DecidableEq, Repr

/-- One step of the `data.acl.reduce` callback in `getBucketACL`. -/
def aclReduceStep (acc : AclPerm) (grant : Grant) : AclPerm :=
  if grant.granteeURI = allUsersURI then
    if grant.permission = "READ" then { acc with publicRead := true }
    else if grant.permission = "WRITE" then { acc with publicWrite := true }
    else acc
  else if grant.granteeURI = authenticatedUsersURI then
    if grant.permission = "READ" then { acc with authenticatedRead := true }
    else if grant.permission = "WRITE" then { acc with authenticatedWrite := true }
    else acc
  else acc

/-- The grant-list reduction of `getBucketACL`. -/
def aclPerm (grants : List Grant) : AclPerm :=
  grants.foldl aclReduceStep {}

/-- The canned-ACL decision chain of `getBucketACL`, starting from
`'unsupported-acl'`. -/
def cannedACLOfPerm (perm : AclPerm) : String :=
  if perm.publicRead && perm.publicWrite && !perm.authenticatedRead
      && !perm.authenticatedWrite then "public-read-write"
  else if perm.publicRead && !perm.publicWrite && !perm.authenticatedRead
      && !perm.authenticatedWrite then "public-read"
  else if !perm.publicRead && !perm.publicWrite && perm.authenticatedRead
      && !perm.authenticatedWrite then "authenticated-read"
  else if !perm.publicRead && !perm.publicWrite && !perm.authenticatedRead
      && !perm.authenticatedWrite then "private"
  else "unsupported-acl"

/-- Embedding of `getBucketACL`'s data path: reduce the decoded grant
list and name the canned ACL. -/
def getBucketACL (grants : List Grant) : String :=
  cannedACLOfPerm (aclPerm grants)

/-- Written from the claim's words, for the refinement statement: does
the grant list contain an all-users READ grant. -/
def specPublicRead (grants : List Grant) : Bool :=
  grants.any (fun g => g.granteeURI == allUsersURI && g.permission == "READ")

/-- Written from the claim's words: does the grant list contain an
all-users WRITE grant. -/
def specPublicWrite (grants : List Grant) : Bool :=
  grants.any (fun g => g.granteeURI == allUsersURI && g.permission == "WRITE")

/-- Written from the claim's words: does the grant list contain an
authenticated-users READ grant. -/
def specAuthenticatedRead (grants : List Grant) : Bool :=
  grants.any (fun g => g.granteeURI == authenticatedUsersURI && g.permission == "READ")

/-- Written from the claim's words: does the grant list contain an
authenticated-users WRITE grant. -/
def specAuthenticatedWrite (grants : List Grant) : Bool :=
  grants.any (fun g => g.granteeURI == authenticatedUsersURI && g.permission == "WRITE")

/-- The reduction table exactly as the claim states it, keyed on the four
flags `(publicRead, publicWrite, authenticatedRead, authenticatedWrite)`. -/
def specCannedACL (pr pw ar aw : Bool) : String :=
  match pr, pw, ar, aw with
  | true, true, false, false => "public-read-write"
  | true, false, false, false => "public-read"
  | false, false, true, false => "authenticated-read"
  | false, false, false, false => "private"
  | _, _, _, _ => "unsupported-acl"

/-! ### `PostPolicy` and `presignedPostPolicy` -/

/-- One entry of `policy.conditions` as the `PostPolicy` setters build it. -/
inductive PolicyCondition where
  | eq (field value : String)
  | startsWith (field value : String)
  | contentLengthRange (minLen maxLen : Nat)
  deriving DecidableEq, Repr

/-- The `PostPolicy` record: `policy.expiration` (absent until
`setExpires` runs), `policy.conditions` and the companion `formData`
object. -/
structure PostPolicy where
  expiration : Option String := none
  conditions : List PolicyCondition := []
  formData : StrMap := []
  deriving DecidableEq, Repr

/-- Embedding of `newPostPolicy()` / the `PostPolicy` constructor. -/
def newPostPolicy : PostPolicy := {}

/-- Embedding of `PostPolicy.setExpires` on a non-null date; the argument
is the already-formatted expiration string the source derives from the
moment date. -/
def setExpires (p : PostPolicy) (dateStr : String) : PostPolicy :=
  { p with expiration := some dateStr }

/-- Embedding of `PostPolicy.setBucket` (bucket-name validation by the
out-of-scope helper omitted). -/
def setBucket (p : PostPolicy) (bucketName : String) : PostPolicy :=
  { p with
    conditions := p.conditions ++ [.eq "$bucket" bucketName]
    formData := insertEntry p.formData "bucket" bucketName }

/-- Embedding of `PostPolicy.setKey`. -/
def setKey (p : PostPolicy) (objectName : String) : PostPolicy :=
  { p with
    conditions := p.conditions ++ [.eq "$key" objectName]
    formData := insertEntry p.formData "key" objectName }

/-- Modelled from the spec: `getScope(region, date)` of `helpers.js`
(the helper file is not under `src/`); §4.2 fixes the credential scope
as `{YYYYMMDD}/{region}/s3/aws4_request`. -/
def getScope (region dateYMD : String) : String :=
  dateYMD ++ "/" ++ region ++ "/s3/aws4_request"

/-- Embedding of `presignedPostPolicy`.  The JSON rendering of the policy
(`JSON.stringify`), base64 encoding and the POST-policy HMAC signature
(`postPresignSignatureV4` of the out-of-scope `signing.js`) are passed as
function parameters.  `regionResult` is the outcome of the
`getBucketRegion` call on `postPolicy.formData.bucket`; when `setBucket`
was never called that property is `undefined`, which the out-of-scope
`isValidBucketName` check inside `getBucketRegion` rejects, raising
`InvalidBucketNameError`.  Note the source checks nothing else about the
policy — in particular not `policy.expiration`. -/
def presignedPostPolicy (renderPolicy : PostPolicy → String)
    (encodeBase64 : String → String) (postPresignSignatureV4 : String → String)
    (anonymous : Bool) (accessKey : String)
    (regionResult : Except String String) (dateStr dateYMD : String)
    (p : PostPolicy) : Except String StrMap :=
  if anonymous then .error "AnonymousRequestError"
  else
    match lookupEntry p.formData "bucket" with
    | none => .error "InvalidBucketNameError"
    | some _ =>
      match regionResult with
      | .error e => .error e
      | .ok region =>
        let credential := accessKey ++ "/" ++ getScope region dateYMD
        let p1 : PostPolicy :=
          { p with
            conditions := p.conditions ++
              [.eq "$x-amz-date" dateStr,
               .eq "$x-amz-algorithm" "AWS4-HMAC-SHA256",
               .eq "$x-amz-credential" credential]
            formData :=
              insertEntry (insertEntry (insertEntry p.formData
                "x-amz-date" dateStr) "x-amz-algorithm" "AWS4-HMAC-SHA256")
                "x-amz-credential" credential }
        let policyBase64 := encodeBase64 (renderPolicy p1)
        let fd := insertEntry p1.formData "policy" policyBase64
        let signature := postPresignSignatureV4 policyBase64
        .ok (insertEntry fd "x-amz-signature" signature)

/-! ### `listObjectsQuery` and `listObjects` -/

/-- Embedding of the `max-keys` component decision in `listObjectsQuery`:
`if (maxKeys) { if (maxKeys >= 1000) maxKeys = 1000; queries.push(...) }` —
the value actually sent, `none` when the component is omitted. -/
def listObjectsQueryMaxKeys (maxKeys : Nat) : Option Nat :=
  if maxKeys ≠ 0 then some (if maxKeys ≥ 1000 then 1000 else maxKeys) else none

/-- Embedding of the query components `listObjectsQuery` pushes (before
the final `queries.sort()` and `join('&')`, which only reorder them);
`esc` is the out-of-scope `uriEscape` helper, applied to every value
except `max-keys`. -/
def listObjectsQueryQueries (esc : String → String)
    (pfx marker delimiter : String) (maxKeys : Nat) : List String :=
  (if pfx ≠ "" then ["prefix=" ++ esc pfx] else []) ++
  (if marker ≠ "" then ["marker=" ++ esc marker] else []) ++
  (if delimiter ≠ "" then ["delimiter=" ++ esc delimiter] else []) ++
  (match listObjectsQueryMaxKeys maxKeys with
   | some v => ["max-keys=" ++ toString v]
   | none => [])

/-- One page of a listing response, as `listObjects` consumes it. -/
structure ListPage where
  isTruncated : Bool
  nextMarker : String
  deriving DecidableEq, Repr

/-- The pagination loop `listNext` of `listObjects`, driven by the pages
the server returns: each iteration calls
`listObjectsQuery(bucketName, prefix, marker, delimiter, 1000)`; a
truncated page continues from its `nextMarker`.  The result is the
`(marker, maxKeys)` argument pair of every issued `listObjectsQuery`
call (the last request is issued even when its response is still
pending). -/
def listObjectsDrive (marker : String) : List ListPage → List (String × Nat)
  | [] => [(marker, 1000)]
  | page :: rest =>
    (marker, 1000) ::
      (if page.isTruncated then listObjectsDrive page.nextMarker rest else [])

/-- Embedding of `listObjects`: delimiter `'/'` unless recursive, and the
pagination loop started at the empty marker. -/
def listObjects (recursive : Bool) (pages : List ListPage) :
    String × List (String × Nat) :=
  ((if recursive then "" else "/"), listObjectsDrive "" pages)

/-! ## Helper lemmas -/

theorem lookupEntry_eraseEntry_self (m : StrMap) (k : String) :
    lookupEntry (eraseEntry m k) k = none := by
  rw [lookupEntry]
  have h : (eraseEntry m k).find? (fun p => p.1 == k) = none := by
    rw [List.find?_eq_none]
    intro x hx
    have hne := (List.mem_filter.mp hx).2
    simpa using hne
  rw [h]
  rfl

theorem lookupEntry_append (m₁ m₂ : StrMap) (k : String) :
    lookupEntry (m₁ ++ m₂) k =
      ((lookupEntry m₁ k).rec (lookupEntry m₂ k) (fun v => some v)) := by
  induction m₁ with
  | nil => rfl
  | cons p m ih =>
    by_cases h : p.1 == k
    · simp [lookupEntry, List.find?_cons, h]
    · simp [lookupEntry, List.find?_cons, h]
      simpa [lookupEntry] using ih

theorem lookupEntry_insertEntry_self (m : StrMap) (k v : String) :
    lookupEntry (insertEntry m k v) k = some v := by
  rw [insertEntry, lookupEntry_append, lookupEntry_eraseEntry_self]
  simp [lookupEntry, List.find?_cons]

theorem ceilDiv_le_ceilDiv_left {a b : Nat} (h : a ≤ b) (c : Nat) :
    ceilDiv a c ≤ ceilDiv b c :=
  Nat.div_le_div_right (by omega)

theorem one_le_ceilDiv {a b : Nat} (ha : 0 < a) (hb : 0 < b) :
    1 ≤ ceilDiv a b := by
  rw [ceilDiv, Nat.one_le_div_iff hb]
  omega

theorem aclReduceStep_publicRead (acc : AclPerm) (g : Grant) :
    (aclReduceStep acc g).publicRead =
      (acc.publicRead || (g.granteeURI == allUsersURI && g.permission == "READ")) := by
  rw [aclReduceStep]
  split_ifs <;> simp_all [beq_eq_decide]

theorem aclReduceStep_publicWrite (acc : AclPerm) (g : Grant) :
    (aclReduceStep acc g).publicWrite =
      (acc.publicWrite || (g.granteeURI == allUsersURI && g.permission == "WRITE")) := by
  rw [aclReduceStep]
  split_ifs <;> simp_all [beq_eq_decide]

theorem aclReduceStep_authenticatedRead (acc : AclPerm) (g : Grant) :
    (aclReduceStep acc g).authenticatedRead =
      (acc.authenticatedRead ||
        (g.granteeURI == authenticatedUsersURI && g.permission == "READ")) := by
  have hne : allUsersURI ≠ authenticatedUsersURI := by decide
  rw [aclReduceStep]
  split_ifs <;> simp_all [beq_eq_decide]

theorem aclReduceStep_authenticatedWrite (acc : AclPerm) (g : Grant) :
    (aclReduceStep acc g).authenticatedWrite =
      (acc.authenticatedWrite ||
        (g.granteeURI == authenticatedUsersURI && g.permission == "WRITE")) := by
  have hne : allUsersURI ≠ authenticatedUsersURI := by decide
  rw [aclReduceStep]
  split_ifs <;> simp_all [beq_eq_decide]

theorem foldl_aclReduceStep_publicRead (l : List Grant) (acc : AclPerm) :
    (l.foldl aclReduceStep acc).publicRead =
      (acc.publicRead || specPublicRead l) := by
  induction l generalizing acc with
  | nil => simp [specPublicRead]
  | cons g l ih =>
    rw [List.foldl_cons, ih, aclReduceStep_publicRead]
    simp [specPublicRead, List.any_cons, Bool.or_assoc]

theorem foldl_aclReduceStep_publicWrite (l : List Grant) (acc : AclPerm) :
    (l.foldl aclReduceStep acc).publicWrite =
      (acc.publicWrite || specPublicWrite l) := by
  induction l generalizing acc with
  | nil => simp [specPublicWrite]
  | cons g l ih =>
    rw [List.foldl_cons, ih, aclReduceStep_publicWrite]
    simp [specPublicWrite, List.any_cons, Bool.or_assoc]

theorem foldl_aclReduceStep_authenticatedRead (l : List Grant) (acc : AclPerm) :
    (l.foldl aclReduceStep acc).authenticatedRead =
      (acc.authenticatedRead || specAuthenticatedRead l) := by
  induction l generalizing acc with
  | nil => simp [specAuthenticatedRead]
  | cons g l ih =>
    rw [List.foldl_cons, ih, aclReduceStep_authenticatedRead]
    simp [specAuthenticatedRead, List.any_cons, Bool.or_assoc]

theorem foldl_aclReduceStep_authenticatedWrite (l : List Grant) (acc : AclPerm) :
    (l.foldl aclReduceStep acc).authenticatedWrite =
      (acc.authenticatedWrite || specAuthenticatedWrite l) := by
  induction l generalizing acc with
  | nil => simp [specAuthenticatedWrite]
  | cons g l ih =>
    rw [List.foldl_cons, ih, aclReduceStep_authenticatedWrite]
    simp [specAuthenticatedWrite, List.any_cons, Bool.or_assoc]

theorem cannedACLOfPerm_eq_specCannedACL (p : AclPerm) :
    cannedACLOfPerm p =
      specCannedACL p.publicRead p.publicWrite p.authenticatedRead
        p.authenticatedWrite := by
  obtain ⟨a, b, c, d⟩ := p
  cases a <;> cases b <;> cases c <;> cases d <;> rfl

theorem listObjectsDrive_maxKeys (pages : List ListPage) :
    ∀ marker pr, pr ∈ listObjectsDrive marker pages → pr.2 = 1000 := by
  induction pages with
  | nil =>
    intro marker pr h
    rw [listObjectsDrive] at h
    simp at h
    rw [h]
  | cons page rest ih =>
    intro marker pr h
    rw [listObjectsDrive] at h
    rcases List.mem_cons.mp h with h1 | h2
    · rw [h1]
    · by_cases ht : page.isTruncated = true
      · rw [if_pos ht] at h2
        exact ih _ _ h2
      · rw [if_neg ht] at h2
        simp at h2

theorem append_ne_empty_of_left_ne_empty (s t : String) (h : s ≠ "") :
    s ++ t ≠ "" := by
  intro hst
  apply h
  apply String.ext
  have hd := congrArg String.data hst
  rw [String.data_append] at hd
  have : s.data = [] := List.append_eq_nil.mp hd |>.1
  simpa using this

/-! ## Claims -/

/-- C1, counterexample: the claim says an object of exactly
`minimumPartSize` (= 5242880) takes the single-shot path in both entry
points, but `fPutObject` tests `size < this.minimumPartSize` and sends an
object of exactly that size down the multipart path. -/
theorem c1_boundary_counterexample :
    fPutObjectRoute 5242880 = UploadRoute.multipart ∧
      5242880 ≤ minimumPartSize := by
  exact ⟨rfl, by decide⟩

/-- C1, amended: `putObject` takes the single-shot buffered PUT exactly
when the declared size is ≤ `minimumPartSize`, while `fPutObject` takes
it exactly when the file's stat size is strictly `<` `minimumPartSize`
(sizes within `maxObjectSize`); hence at exactly `minimumPartSize` the
two entry points diverge (single-shot vs multipart), and at
`minimumPartSize + 1` both go multipart.  The single-shot uploader's
request carries no multipart query (`''`, so no `uploadId`), the
`Content-MD5` and payload sha256 computed from the buffered payload, and
expects status 200. -/
theorem c1_upload_route_amended :
    (∀ size, putObjectRoute size = UploadRoute.singleShot ↔
        size ≤ minimumPartSize) ∧
    (∀ size, size ≤ maxObjectSize →
        (fPutObjectRoute size = UploadRoute.singleShot ↔
          size < minimumPartSize)) ∧
    putObjectRoute minimumPartSize = UploadRoute.singleShot ∧
    fPutObjectRoute minimumPartSize = UploadRoute.multipart ∧
    putObjectRoute (minimumPartSize + 1) = UploadRoute.multipart ∧
    fPutObjectRoute (minimumPartSize + 1) = UploadRoute.multipart ∧
    ∀ ct len sha md5,
      (simpleUploadRequest ct len sha md5).query = "" ∧
      (simpleUploadRequest ct len sha md5).contentMD5 = md5 ∧
      (simpleUploadRequest ct len sha md5).sha256sum = sha ∧
      (simpleUploadRequest ct len sha md5).expectedStatus = 200 := by
  refine ⟨?_, ?_, rfl, rfl, rfl, rfl, ?_⟩
  · intro size
    by_cases h : size ≤ minimumPartSize <;> simp [putObjectRoute, h]
  · intro size hmax
    rw [fPutObjectRoute, if_neg (by omega)]
    by_cases h : size < minimumPartSize <;> simp [h]
  · intro ct len sha md5
    exact ⟨rfl, rfl, rfl, rfl⟩

/-- C1 witness: the amended theorem applied to a 3 MiB object. -/
theorem c1_upload_route_amended_witness :
    3145728 ≤ maxObjectSize ∧
      (fPutObjectRoute 3145728 = UploadRoute.singleShot ↔
        3145728 < minimumPartSize) :=
  ⟨by decide, c1_upload_route_amended.2.1 3145728 (by decide)⟩

/-- C2, counterexample: the claim asserts the result is a positive
multiple of 5 MiB for every `0 ≤ S ≤ maxObjectSize`, but
`calculatePartSize(0)` returns 0, which is not positive. -/
theorem c2_zero_size_counterexample :
    calculatePartSize 0 = .ok 0 ∧ ¬ (0 : Nat) < 0 :=
  ⟨rfl, by omega⟩

/-- C2, amended: for every `S ≤ maxObjectSize`, `calculatePartSize(S)`
equals `ceil(ceil(S/10000)/minimumPartSize) × minimumPartSize`; the
result is a multiple of 5 MiB, never exceeds `maximumPartSize`, and is
positive whenever `S` is; `calculatePartSize(5·2⁴⁰) = 525·1024·1024`;
and for `S > maxObjectSize` the function raises an error instead of
returning a size. -/
theorem c2_calculatePartSize_amended :
    (∀ S, S ≤ maxObjectSize →
        calculatePartSize S =
          .ok (ceilDiv (ceilDiv S 10000) minimumPartSize * minimumPartSize) ∧
        ∀ r, calculatePartSize S = .ok r →
          minimumPartSize ∣ r ∧ r ≤ maximumPartSize ∧ (0 < S → 0 < r)) ∧
    calculatePartSize (5 * 2 ^ 40) = .ok (525 * 1024 * 1024) ∧
    (∀ S, maxObjectSize < S →
        calculatePartSize S = .error "size should not be more than maxObjectSize") := by
  refine ⟨?_, rfl, ?_⟩
  · intro S hS
    have hform : calculatePartSize S =
        .ok (ceilDiv (ceilDiv S 10000) minimumPartSize * minimumPartSize) := by
      rw [calculatePartSize, if_neg (by omega)]
    refine ⟨hform, ?_⟩
    intro r hr
    rw [hform] at hr
    obtain rfl : ceilDiv (ceilDiv S 10000) minimumPartSize * minimumPartSize = r :=
      by injection hr
    refine ⟨dvd_mul_left _ _, ?_, ?_⟩
    · calc ceilDiv (ceilDiv S 10000) minimumPartSize * minimumPartSize
          ≤ ceilDiv (ceilDiv maxObjectSize 10000) minimumPartSize * minimumPartSize :=
            Nat.mul_le_mul_right _
              (ceilDiv_le_ceilDiv_left (ceilDiv_le_ceilDiv_left hS 10000) _)
        _ ≤ maximumPartSize := by decide
    · intro hpos
      have h1 : 1 ≤ ceilDiv S 10000 := one_le_ceilDiv hpos (by decide)
      have h2 : 1 ≤ ceilDiv (ceilDiv S 10000) minimumPartSize :=
        one_le_ceilDiv h1 (by decide)
      exact Nat.mul_pos h2 (by decide)
  · intro S h
    rw [calculatePartSize, if_pos (by omega)]

/-- C2 witness: the amended theorem applied to a 3 MiB object, whose
part size is exactly one `minimumPartSize`. -/
theorem c2_calculatePartSize_amended_witness :
    3145728 ≤ maxObjectSize ∧
      calculatePartSize 3145728 =
        .ok (ceilDiv (ceilDiv 3145728 10000) minimumPartSize * minimumPartSize) :=
  ⟨by decide, (c2_calculatePartSize_amended.1 3145728 (by decide)).1⟩

/-- C3: whenever a response's status differs from the expected status,
`makeRequestStream` deletes the bucket's region-cache entry before the
decoded error reaches the caller (the map in force when the error
callback fires no longer holds the entry); a successful
`removeBucket` (status 204) also deletes the entry; and once the entry
is gone the next `getBucketRegion` call for that bucket issues the
`?location` request again. -/
theorem c3_region_cache_invalidation :
    (∀ m b expected actual, actual ≠ expected →
        (makeRequestStreamOnResponse m (some b) expected actual).2 = true ∧
        lookupEntry (makeRequestStreamOnResponse m (some b) expected actual).1 b
          = none) ∧
    (∀ m b, (removeBucket m b 204).2 = false ∧
        lookupEntry (removeBucket m b 204).1 b = none) ∧
    (∀ host anon m b resp, lookupEntry m b = none →
        (getBucketRegion host anon m b resp).1.issuedRequest = true) := by
  refine ⟨?_, ?_, ?_⟩
  · intro m b expected actual hne
    rw [makeRequestStreamOnResponse, if_pos (Ne.symm hne)]
    exact ⟨rfl, lookupEntry_eraseEntry_self _ _⟩
  · intro m b
    simp [removeBucket, makeRequestStreamOnResponse, lookupEntry_eraseEntry_self]
  · intro host anon m b resp hnone
    rw [getBucketRegion, hnone]
    by_cases hs : resp.statusCode = 200
    · simp [getBucketRegionFetch, hs, RegionOutcome.issuedRequest]
    · simp [getBucketRegionFetch, hs, RegionOutcome.issuedRequest]

/-- C3 witness: a 400 against an expected 200 evicts the cached region
and surfaces the error. -/
theorem c3_region_cache_invalidation_witness :
    (400 : Nat) ≠ 200 ∧
      (makeRequestStreamOnResponse [("b", "us-west-2")] (some "b") 200 400).2
        = true ∧
      lookupEntry
        (makeRequestStreamOnResponse [("b", "us-west-2")] (some "b") 200 400).1
        "b" = none :=
  ⟨by decide,
   (c3_region_cache_invalidation.1 [("b", "us-west-2")] "b" 200 400 (by decide)).1,
   (c3_region_cache_invalidation.1 [("b", "us-west-2")] "b" 200 400 (by decide)).2⟩

/-- C4: region resolution — no bucket name means `us-east-1` with no
lookup; a cached (truthy) entry is returned without issuing a request; a
cache miss issues a path-style GET `/{bucket}?location` signed with
`us-east-1` (unsigned for anonymous clients), where an absent or empty
body decodes to `us-east-1`; the decoded region is inserted into the
cache only on a 200, while an error response inserts nothing and
propagates. -/
theorem c4_region_resolution :
    (∀ host anon m resp, resolveRegion host anon m none resp =
        (.direct "us-east-1", m)) ∧
    (∀ host anon m b r resp, lookupEntry m b = some r → r ≠ "" →
        getBucketRegion host anon m b resp = (.hit r, m)) ∧
    (∀ host anon m b resp, lookupEntry m b = none → resp.statusCode = 200 →
        getBucketRegion host anon m b resp =
          (.ok (locationRequest host anon b) (regionFromBody resp.body),
            insertEntry m b (regionFromBody resp.body)) ∧
        lookupEntry (insertEntry m b (regionFromBody resp.body)) b =
          some (regionFromBody resp.body)) ∧
    (∀ host anon m b resp, lookupEntry m b = none → resp.statusCode ≠ 200 →
        getBucketRegion host anon m b resp =
          (.err (locationRequest host anon b), m)) ∧
    regionFromBody none = "us-east-1" ∧
    regionFromBody (some "") = "us-east-1" ∧
    (∀ host b, (locationRequest host false b).signingRegion = some "us-east-1" ∧
        (locationRequest host false b).path = "/" ++ b ++ "?location" ∧
        (locationRequest host false b).host = host ∧
        (locationRequest host false b).method = "GET") := by
  refine ⟨?_, ?_, ?_, ?_, rfl, rfl, ?_⟩
  · intro host anon m resp
    rfl
  · intro host anon m b r resp hcached hr
    rw [getBucketRegion, hcached]
    exact if_neg hr
  · intro host anon m b resp hnone hs
    rw [getBucketRegion, hnone, getBucketRegionFetch, if_neg (by simp [hs])]
    exact ⟨rfl, lookupEntry_insertEntry_self _ _ _⟩
  · intro host anon m b resp hnone hs
    rw [getBucketRegion, hnone, getBucketRegionFetch, if_pos hs]
  · intro host b
    exact ⟨rfl, rfl, rfl, rfl⟩

/-- C4 witness: a cached entry is returned as a hit with no request and
the cache unchanged. -/
theorem c4_region_resolution_witness :
    lookupEntry [("b", "eu-west-1")] "b" = some "eu-west-1" ∧
      getBucketRegion "play.minio.io" false [("b", "eu-west-1")] "b"
          ⟨200, none⟩ =
        (.hit "eu-west-1", [("b", "eu-west-1")]) :=
  ⟨rfl,
   c4_region_resolution.2.1 "play.minio.io" false [("b", "eu-west-1")] "b"
     "eu-west-1" ⟨200, none⟩ rfl (by decide)⟩

/-- C5, counterexample: the claim says the body is empty for region
`us-east-1`, but the source only omits the `CreateBucketConfiguration`
payload when the region argument is falsy (the empty string) — for
`"us-east-1"` the XML body carrying that `LocationConstraint` is sent. -/
theorem c5_us_east_1_body_counterexample :
    makeBucket "b" "private" "us-east-1" =
      .ok { method := "PUT", bucketName := "b",
            payload := "<CreateBucketConfiguration xmlns=\"http://s3.amazonaws.com/doc/2006-03-01/\"><LocationConstraint>us-east-1</LocationConstraint></CreateBucketConfiguration>",
            aclHeader := "private", signingRegion := "us-east-1",
            expectedStatus := 200 } ∧
    ("<CreateBucketConfiguration xmlns=\"http://s3.amazonaws.com/doc/2006-03-01/\"><LocationConstraint>us-east-1</LocationConstraint></CreateBucketConfiguration>" : String)
      ≠ "" :=
  ⟨rfl, by decide⟩

/-- C5, amended: `makeBucket("b","private","us-east-1")` issues a PUT on
the bucket with header `x-amz-acl: private`, signed with region
`us-east-1`, expecting status 200, whose payload is the
`CreateBucketConfiguration` XML carrying `LocationConstraint us-east-1`;
the body is omitted only when the region argument is the empty string,
and for every non-empty region (hence every accepted region) the body
carrying that `LocationConstraint` is sent. -/
theorem c5_makeBucket_amended :
    (∀ b region r, makeBucket b "private" region = .ok r →
        r.method = "PUT" ∧ r.bucketName = b ∧ r.aclHeader = "private" ∧
        r.signingRegion = "us-east-1" ∧ r.expectedStatus = 200 ∧
        r.payload = makeBucketPayload region) ∧
    makeBucketPayload "" = "" ∧
    (∀ region, region ≠ "" →
        makeBucketPayload region =
          "<CreateBucketConfiguration xmlns=\"http://s3.amazonaws.com/doc/2006-03-01/\"><LocationConstraint>"
            ++ region ++ "</LocationConstraint></CreateBucketConfiguration>") ∧
    makeBucket "b" "private" "us-east-1" =
      .ok { method := "PUT", bucketName := "b",
            payload := makeBucketPayload "us-east-1", aclHeader := "private",
            signingRegion := "us-east-1", expectedStatus := 200 } := by
  refine ⟨?_, rfl, ?_, rfl⟩
  · intro b region r h
    have e : makeBucket b "private" region =
        .ok { method := "PUT", bucketName := b,
              payload := makeBucketPayload region, aclHeader := "private",
              signingRegion := "us-east-1", expectedStatus := 200 } := rfl
    rw [e] at h
    injection h with h'
    subst h'
    exact ⟨rfl, rfl, rfl, rfl, rfl, rfl⟩
  · intro region hne
    rw [makeBucketPayload, if_neg hne]

/-- C5 witness: for the non-default region `eu-west-1` the XML body
carrying that `LocationConstraint` is sent. -/
theorem c5_makeBucket_amended_witness :
    ("eu-west-1" : String) ≠ "" ∧
      makeBucketPayload "eu-west-1" =
        "<CreateBucketConfiguration xmlns=\"http://s3.amazonaws.com/doc/2006-03-01/\"><LocationConstraint>"
          ++ "eu-west-1" ++ "</LocationConstraint></CreateBucketConfiguration>" :=
  ⟨by decide, c5_makeBucket_amended.2.2.1 "eu-west-1" (by decide)⟩

/-- C6, counterexample: at `filePath = "a/f"` (so `path.dirname` gives
`"a"`, not `'.'`, and the waterfall runs in order) the resume artifact is
named `{filePath}.{etag}.part.minio`, not `{filePath}.{etag}.part`; and
after a download whose final size (7) differs from the object size (10)
the source still renames the part file to `filePath` and surfaces no
error — the waterfall's completion callback is `rename`, which discards
the size-mismatch error — so the rename is not conditioned on the
verification succeeding. -/
theorem c6_fGetObject_counterexample :
    fGetObject (fun _ => "a") "a/f"
        { objSize := 10, etag := "e", partFileExists := true,
          partFileSize := 4, downloadedBytes := 3 } =
      FGetOutcome.completed
        { partFile := "a/f.e.part.minio", skippedDownload := false,
          downloadOffset := 4, appendFlag := true, finalPartSize := 7,
          sizeMismatch := true, renamed := true, surfacedError := none } ∧
    ("a/f.e.part.minio" : String) ≠ "a/f.e.part" :=
  ⟨rfl, by decide⟩

/-- C6, amended: `fGetObject` computes the resume artifact
`{filePath}.{etag}.part.minio`; a part file whose size equals the
object's size skips the download entirely and is renamed to `filePath`
(this holds for any `filePath`, as `rename` closes over the caller's
callback).  When a download is needed and `path.dirname(filePath)` is
`'.'`, the second waterfall task's bare `cb()` shifts the third task's
arguments, `getPartialObject` receives an undefined callback and its
validation throws an uncaught TypeError: no download, no rename, no
callback.  Otherwise an existing part file of a different size resumes
with an append write from that offset (a missing one starts at 0 in
write mode); after the download the part file's size is compared against
the object's size and a mismatch constructs the size-mismatch error, but
every completed run renames the part file to `filePath` and surfaces no
error — the waterfall's completion callback is `rename`, which discards
the error, so the rename is not conditioned on the verification. -/
theorem c6_fGetObject_amended :
    ∀ dirname fp w,
      (fGetObject dirname fp w).partFile =
        fp ++ "." ++ w.etag ++ ".part.minio" ∧
      ((w.partFileExists && w.partFileSize == w.objSize) = true →
        fGetObject dirname fp w = FGetOutcome.completed
          { partFile := fp ++ "." ++ w.etag ++ ".part.minio",
            skippedDownload := true, downloadOffset := 0, appendFlag := false,
            finalPartSize := w.partFileSize, sizeMismatch := false,
            renamed := true, surfacedError := none }) ∧
      ((w.partFileExists && w.partFileSize == w.objSize) = false →
        dirname fp = "." →
        fGetObject dirname fp w =
          FGetOutcome.crashed (fp ++ "." ++ w.etag ++ ".part.minio")) ∧
      (dirname fp ≠ "." → w.partFileExists = true →
        w.partFileSize ≠ w.objSize →
        fGetObject dirname fp w = FGetOutcome.completed
          { partFile := fp ++ "." ++ w.etag ++ ".part.minio",
            skippedDownload := false, downloadOffset := w.partFileSize,
            appendFlag := true,
            finalPartSize := w.partFileSize + w.downloadedBytes,
            sizeMismatch := w.partFileSize + w.downloadedBytes != w.objSize,
            renamed := true, surfacedError := none }) ∧
      (dirname fp ≠ "." → w.partFileExists = false →
        fGetObject dirname fp w = FGetOutcome.completed
          { partFile := fp ++ "." ++ w.etag ++ ".part.minio",
            skippedDownload := false, downloadOffset := 0, appendFlag := false,
            finalPartSize := w.downloadedBytes,
            sizeMismatch := w.downloadedBytes != w.objSize,
            renamed := true, surfacedError := none }) ∧
      (∀ r, fGetObject dirname fp w = FGetOutcome.completed r →
        r.skippedDownload = false →
        (r.sizeMismatch = true ↔ r.finalPartSize ≠ w.objSize)) ∧
      (∀ r, fGetObject dirname fp w = FGetOutcome.completed r →
        r.renamed = true ∧ r.surfacedError = none) := by
  intro dirname fp w
  by_cases hc : (w.partFileExists && w.partFileSize == w.objSize) = true
  · have he : w.partFileExists = true := ((Bool.and_eq_true _ _).mp hc).1
    have hs : w.partFileSize = w.objSize := by
      have h2 := ((Bool.and_eq_true _ _).mp hc).2
      simpa using h2
    have hbody : fGetObject dirname fp w = FGetOutcome.completed
        { partFile := fp ++ "." ++ w.etag ++ ".part.minio",
          skippedDownload := true, downloadOffset := 0, appendFlag := false,
          finalPartSize := w.partFileSize, sizeMismatch := false,
          renamed := true, surfacedError := none } := by
      rw [fGetObject]
      rw [if_pos hc]
    refine ⟨by rw [hbody]; rfl, fun _ => hbody, ?_, ?_, ?_, ?_, ?_⟩
    · intro hfalse _
      rw [hc] at hfalse
      cases hfalse
    · intro _ _ hne
      exact absurd hs hne
    · intro _ hfe
      rw [he] at hfe
      cases hfe
    · intro r hr hskip
      rw [hbody] at hr
      injection hr with hr'
      subst hr'
      simp at hskip
    · intro r hr
      rw [hbody] at hr
      injection hr with hr'
      subst hr'
      exact ⟨rfl, rfl⟩
  · have hc' : (w.partFileExists && (w.partFileSize == w.objSize)) = false := by
      simpa using hc
    by_cases hd : dirname fp = "."
    · have hbody : fGetObject dirname fp w =
          FGetOutcome.crashed (fp ++ "." ++ w.etag ++ ".part.minio") := by
        rw [fGetObject]
        rw [if_neg (by simp [hc']), if_pos hd]
      refine ⟨by rw [hbody]; rfl, ?_, fun _ _ => hbody, ?_, ?_, ?_, ?_⟩
      · intro htrue
        rw [hc'] at htrue
        cases htrue
      · intro hnd
        exact absurd hd hnd
      · intro hnd
        exact absurd hd hnd
      · intro r hr _
        rw [hbody] at hr
        cases hr
      · intro r hr
        rw [hbody] at hr
        cases hr
    · have hbody : fGetObject dirname fp w = FGetOutcome.completed
          { partFile := fp ++ "." ++ w.etag ++ ".part.minio",
            skippedDownload := false,
            downloadOffset := if w.partFileExists then w.partFileSize else 0,
            appendFlag := w.partFileExists,
            finalPartSize :=
              (if w.partFileExists then w.partFileSize else 0) + w.downloadedBytes,
            sizeMismatch :=
              (if w.partFileExists then w.partFileSize else 0) + w.downloadedBytes
                != w.objSize,
            renamed := true, surfacedError := none } := by
        rw [fGetObject]
        rw [if_neg (by simp [hc']), if_neg hd]
      refine ⟨by rw [hbody]; rfl, ?_, ?_, ?_, ?_, ?_, ?_⟩
      · intro htrue
        rw [hc'] at htrue
        cases htrue
      · intro _ hnd
        exact absurd hnd hd
      · intro _ he _
        rw [hbody, he]
        rfl
      · intro _ he
        rw [hbody, he]
        simp
      · intro r hr _
        rw [hbody] at hr
        injection hr with hr'
        subst hr'
        simp [bne_iff_ne]
      · intro r hr
        rw [hbody] at hr
        injection hr with hr'
        subst hr'
        exact ⟨rfl, rfl⟩

/-- C6 witness: a part file whose size equals the object's size is
renamed with no download even for a bare file name (`path.dirname = '.'`). -/
theorem c6_fGetObject_amended_witness :
    fGetObject (fun _ => ".") "f" (FGetWorld.mk 10 "e" true 10 0) =
      FGetOutcome.completed
        { partFile := "f.e.part.minio", skippedDownload := true,
          downloadOffset := 0, appendFlag := false, finalPartSize := 10,
          sizeMismatch := false, renamed := true, surfacedError := none } :=
  (c6_fGetObject_amended (fun _ => ".") "f" (FGetWorld.mk 10 "e" true 10 0)).2.1
    rfl

/-- C7: `getPartialObject` sends `Range: bytes={offset}-{offset+length-1}`
when offset and length are both positive, the open-ended
`Range: bytes={offset}-` when length = 0 with offset > 0, and no Range
header when both are 0; the expected status is 206 exactly when a Range
header is sent and 200 otherwise; `getPartialObject("b","o",10,20)`
sends `Range: bytes=10-29` and expects 206. -/
theorem c7_getPartialObject_range :
    (∀ b o offset length, 0 < offset → 0 < length →
        getPartialObject b o offset length =
          { method := "GET", bucketName := b, objectName := o,
            rangeHeader := some ("bytes=" ++ toString offset ++ "-"
              ++ toString (offset + length - 1)),
            expectedStatus := 206 }) ∧
    (∀ b o offset, 0 < offset →
        getPartialObject b o offset 0 =
          { method := "GET", bucketName := b, objectName := o,
            rangeHeader := some ("bytes=" ++ toString offset ++ "-"),
            expectedStatus := 206 }) ∧
    (∀ b o, getPartialObject b o 0 0 =
        { method := "GET", bucketName := b, objectName := o,
          rangeHeader := none, expectedStatus := 200 }) ∧
    (∀ b o offset length,
        (getPartialObject b o offset length).expectedStatus = 206 ↔
          (getPartialObject b o offset length).rangeHeader ≠ none) ∧
    getPartialObject "b" "o" 10 20 =
      { method := "GET", bucketName := "b", objectName := "o",
        rangeHeader := some "bytes=10-29", expectedStatus := 206 } := by
  have hbytes : ∀ n : Nat, ("bytes=" ++ toString n ++ "-") ≠ "" := fun n =>
    append_ne_empty_of_left_ne_empty _ _
      (append_ne_empty_of_left_ne_empty _ _ (by decide))
  refine ⟨?_, ?_, ?_, ?_, ?_⟩
  · intro b o offset length ho hl
    have hno : offset ≠ 0 := by omega
    have hnl : length ≠ 0 := by omega
    have hrange : getPartialObjectRange offset length =
        "bytes=" ++ toString offset ++ "-" ++ toString (offset + length - 1) := by
      rw [getPartialObjectRange, if_pos (Or.inl hno), if_pos hno, if_pos hnl,
        Nat.add_comm length offset]
    have hne : getPartialObjectRange offset length ≠ "" := by
      rw [hrange]
      exact append_ne_empty_of_left_ne_empty _ _ (hbytes offset)
    rw [getPartialObject]
    rw [if_pos hne, if_pos hne, hrange]
  · intro b o offset ho
    have hno : offset ≠ 0 := by omega
    have hrange : getPartialObjectRange offset 0 =
        "bytes=" ++ toString offset ++ "-" := by
      rw [getPartialObjectRange, if_pos (Or.inl hno), if_pos hno, if_neg (by omega)]
      exact String.append_empty _
    have hne : getPartialObjectRange offset 0 ≠ "" := by
      rw [hrange]
      exact hbytes offset
    rw [getPartialObject]
    rw [if_pos hne, if_pos hne, hrange]
  · intro b o
    rfl
  · intro b o offset length
    by_cases hr : getPartialObjectRange offset length = ""
    · simp [getPartialObject, hr]
    · simp [getPartialObject, hr]
  · rfl

/-- C7 witness: an open-ended read from offset 5 sends
`Range: bytes=5-` and expects 206. -/
theorem c7_getPartialObject_range_witness :
    0 < 5 ∧
      getPartialObject "b" "o" 5 0 =
        { method := "GET", bucketName := "b", objectName := "o",
          rangeHeader := some ("bytes=" ++ toString 5 ++ "-"),
          expectedStatus := 206 } :=
  ⟨by decide, c7_getPartialObject_range.2.1 "b" "o" 5 (by decide)⟩

/-- C8: for every server-returned grant list, `getBucketACL` computes the
four flags as existence of the corresponding all-users/authenticated-users
READ/WRITE grants and maps them through exactly the claimed reduction
table, every combination outside the four listed rows yielding
`unsupported-acl`. -/
theorem c8_getBucketACL_table :
    ∀ grants, getBucketACL grants =
      specCannedACL (specPublicRead grants) (specPublicWrite grants)
        (specAuthenticatedRead grants) (specAuthenticatedWrite grants) := by
  intro grants
  rw [getBucketACL, cannedACLOfPerm_eq_specCannedACL, aclPerm,
    foldl_aclReduceStep_publicRead, foldl_aclReduceStep_publicWrite,
    foldl_aclReduceStep_authenticatedRead, foldl_aclReduceStep_authenticatedWrite]
  simp

/-- C9, counterexample: a policy on which `setBucket` was called but
`setExpires` never was (its `expiration` is absent) is still signed —
`presignedPostPolicy` returns a completed formData map carrying
`x-amz-signature` instead of failing. -/
theorem c9_missing_expiration_counterexample :
    (setBucket newPostPolicy "mybucket").expiration = none ∧
      ((presignedPostPolicy (fun _ => "policyJSON") (fun s => s)
          (fun s => "sig-" ++ s) false "AKEY" (Except.ok "us-east-1")
          "20151225T000000Z" "20151225"
          (setBucket newPostPolicy "mybucket")).toOption.bind
        (fun fd => lookupEntry fd "x-amz-signature")) = some "sig-policyJSON" :=
  ⟨rfl, rfl⟩

/-- C9, amended: `presignedPostPolicy` enforces only the bucket half of
the invariant — an anonymous client and a policy whose formData lacks
`bucket` (i.e. `setBucket` was never called) each fail with an error, and
a region-resolution error propagates; but whenever the bucket is present
and the region resolves, the policy is signed and the completed formData
carrying `x-amz-signature` is returned regardless of whether `setExpires`
was ever called (`policy.expiration` is never checked). -/
theorem c9_presignedPostPolicy_amended :
    ∀ render enc sign accessKey rr dateStr ymd (p : PostPolicy),
      presignedPostPolicy render enc sign true accessKey rr dateStr ymd p =
        .error "AnonymousRequestError" ∧
      (lookupEntry p.formData "bucket" = none →
        presignedPostPolicy render enc sign false accessKey rr dateStr ymd p =
          .error "InvalidBucketNameError") ∧
      (∀ b region, lookupEntry p.formData "bucket" = some b →
        rr = Except.ok region →
        ∃ fd, presignedPostPolicy render enc sign false accessKey rr dateStr ymd p
            = .ok fd ∧
          lookupEntry fd "x-amz-signature" ≠ none) ∧
      (∀ e b, rr = Except.error e → lookupEntry p.formData "bucket" = some b →
        presignedPostPolicy render enc sign false accessKey rr dateStr ymd p =
          .error e) := by
  intro render enc sign accessKey rr dateStr ymd p
  refine ⟨rfl, ?_, ?_, ?_⟩
  · intro hnone
    simp [presignedPostPolicy, hnone]
  · intro b region hb hrr
    subst hrr
    rw [presignedPostPolicy, hb]
    refine ⟨_, rfl, ?_⟩
    rw [lookupEntry_insertEntry_self]
    simp
  · intro e b hrr hb
    subst hrr
    rw [presignedPostPolicy, hb]
    rfl

/-- C9 witness: a policy with no bucket set fails with
`InvalidBucketNameError`. -/
theorem c9_presignedPostPolicy_amended_witness :
    lookupEntry newPostPolicy.formData "bucket" = none ∧
      presignedPostPolicy (fun _ => "pj") (fun s => s) (fun s => "sig-" ++ s)
        false "AK" (Except.ok "us-west-1") "d" "ymd" newPostPolicy =
        .error "InvalidBucketNameError" :=
  ⟨rfl,
   (c9_presignedPostPolicy_amended (fun _ => "pj") (fun s => s)
     (fun s => "sig-" ++ s) "AK" (Except.ok "us-west-1") "d" "ymd"
     newPostPolicy).2.1 rfl⟩

/-- C10: `listObjectsQuery` clamps any `maxKeys ≥ 1000` to 1000 and omits
`max-keys` when `maxKeys = 0`, so the value sent never exceeds 1000 and
the clamped value appears as the `max-keys` query component; and
`listObjects` drives every page request of its pagination loop with
`maxKeys = 1000`, so no single HTTP request asks the server for more
than 1000 keys. -/
theorem c10_listObjects_maxKeys :
    (∀ k v, listObjectsQueryMaxKeys k = some v → v ≤ 1000) ∧
    (∀ k, 1000 ≤ k → listObjectsQueryMaxKeys k = some 1000) ∧
    (∀ k, k ≠ 0 → k < 1000 → listObjectsQueryMaxKeys k = some k) ∧
    listObjectsQueryMaxKeys 0 = none ∧
    (∀ esc pfx marker delim k v, listObjectsQueryMaxKeys k = some v →
        ("max-keys=" ++ toString v) ∈
          listObjectsQueryQueries esc pfx marker delim k) ∧
    (∀ pages marker pr, pr ∈ listObjectsDrive marker pages → pr.2 = 1000) ∧
    (∀ recursive pages pr, pr ∈ (listObjects recursive pages).2 →
        pr.2 = 1000) := by
  refine ⟨?_, ?_, ?_, rfl, ?_, ?_, ?_⟩
  · intro k v h
    rw [listObjectsQueryMaxKeys] at h
    split_ifs at h with h1 h2
    · injection h with h'
      omega
    · injection h with h'
      omega
  · intro k hk
    rw [listObjectsQueryMaxKeys, if_pos (by omega), if_pos (by omega)]
  · intro k h0 hlt
    rw [listObjectsQueryMaxKeys, if_pos h0, if_neg (by omega)]
  · intro esc pfx marker delim k v h
    simp [listObjectsQueryQueries, h]
  · intro pages marker pr h
    exact listObjectsDrive_maxKeys pages marker pr h
  · intro recursive pages pr h
    exact listObjectsDrive_maxKeys pages "" pr h

/-- C10 witness: an over-large `maxKeys` of 5000 is clamped to 1000. -/
theorem c10_listObjects_maxKeys_witness :
    1000 ≤ 5000 ∧ listObjectsQueryMaxKeys 5000 = some 1000 :=
  ⟨by decide, c10_listObjects_maxKeys.2.1 5000 (by decide)⟩

end Minio
